import Mathlib

/-!
Verification of the fastatsd client (fastatsd/client.py) against its
natural-language specification.

The embedding is shallow: the mutable state touched by a `FastatsClient`
instance (its collector queue, the condition-variable notification count,
the Sender's running flag, the registered exit hook) is a `ClientState`
record, every recording method becomes a pure function on it, and the
uniform random draw made by `random.random()` is passed in explicitly as a
rational `u` with `0 ≤ u < 1`.  Python exceptions are modelled with
`Except String` (the string is the exception described in the source) or,
where the raising function has observable partial effects, with an explicit
result/exception pair.
-/

/-- One metric event pushed into the cystatsd `MetricCollector`
(`push_counter`, `push_timer`, `push_gauge`, `push_set`). -/
inductive MetricEvent where
  | counter (key : String) (count : Int) (rate : ℚ)
  | timer (key : String) (ms : ℚ) (rate : ℚ)
  | gauge (key : String) (value : Int) (rate : ℚ) (delta : Bool)
  | setev (key : String) (value : Int) (rate : ℚ)
deriving DecidableEq, Repr

/-- The namespaced key an event carries. -/
def MetricEvent.key : MetricEvent → String
  | .counter k _ _ => k
  | .timer k _ _ => k
  | .gauge k _ _ _ => k
  | .setev k _ _ => k

/-- The state owned by one `FastatsClient` instance: `pfx` is the stored
`self._prefix` (already suffixed with a dot when non-empty), `queue` the
pending events inside the collector, `notifyCount` the number of
`self._queue_cv.notify()` calls made so far, `senderRunning` the Sender's
`_running` flag, and `atexitRegistered` whether the `atexit` hook for
`self.stop` is currently registered. -/
structure ClientState where
  pfx : String
  queue : List MetricEvent
  notifyCount : Nat
  senderRunning : Bool
  atexitRegistered : Bool
deriving DecidableEq, Repr

/-- `FastatsClient.__init__`: `self._prefix = prefix + '.' if prefix else ''`,
a fresh collector, and `_start_sender_thread` (which sets the Sender running
and registers the `atexit` hook). -/
def FastatsClient.init (pre : String) : ClientState :=
  { pfx := if pre = "" then "" else pre ++ "."
    queue := []
    notifyCount := 0
    senderRunning := true
    atexitRegistered := true }

/-- `FastatsClient.timing`: drop when the draw exceeds `rate`, otherwise
push a timer event under the lock and notify. -/
def FastatsClient.timing (u : ℚ) (st : ClientState) (stat : String)
    (delta : ℚ) (rate : ℚ) : ClientState :=
  if u > rate then st
  else { st with
          queue := st.queue ++ [MetricEvent.timer (st.pfx ++ stat) delta rate]
          notifyCount := st.notifyCount + 1 }

/-- `FastatsClient.incr`: drop when the draw exceeds `rate`, otherwise push
a counter event under the lock and notify. -/
def FastatsClient.incr (u : ℚ) (st : ClientState) (stat : String)
    (count : Int) (rate : ℚ) : ClientState :=
  if u > rate then st
  else { st with
          queue := st.queue ++ [MetricEvent.counter (st.pfx ++ stat) count rate]
          notifyCount := st.notifyCount + 1 }

/-- `FastatsClient.decr`: `self.incr(stat, -count, rate)`. -/
def FastatsClient.decr (u : ℚ) (st : ClientState) (stat : String)
    (count : Int) (rate : ℚ) : ClientState :=
  FastatsClient.incr u st stat (-count) rate

/-- `FastatsClient.gauge`: drop when the draw exceeds `rate`; otherwise,
when `value < 0 and not delta`, first push a gauge reset of the key to `0`
at rate `1` (`push_gauge(key, 0, 1)`, delta defaulting to false), then push
the gauge event itself, and notify. -/
def FastatsClient.gauge (u : ℚ) (st : ClientState) (stat : String)
    (value : Int) (rate : ℚ) (delta : Bool) : ClientState :=
  if u > rate then st
  else
    let q1 := if value < 0 ∧ delta = false then
        st.queue ++ [MetricEvent.gauge (st.pfx ++ stat) 0 1 false]
      else st.queue
    { st with
        queue := q1 ++ [MetricEvent.gauge (st.pfx ++ stat) value rate delta]
        notifyCount := st.notifyCount + 1 }

/-- `FastatsClient.set`: drop when the draw exceeds `rate`, otherwise push
a set event under the lock and notify. -/
def FastatsClient.set (u : ℚ) (st : ClientState) (stat : String)
    (value : Int) (rate : ℚ) : ClientState :=
  if u > rate then st
  else { st with
          queue := st.queue ++ [MetricEvent.setev (st.pfx ++ stat) value rate]
          notifyCount := st.notifyCount + 1 }

/-- `FastatsClient.pipeline`: `raise NotImplementedError()`.  The result
pairs the (untouched) state with the exception raised. -/
def FastatsClient.pipeline (st : ClientState) : ClientState × Option String :=
  (st, some "NotImplementedError")

/-- `CystatsSender.ask_stop`: `assert self._running` (an `AssertionError`
when the flag is already false), then set the flag false and notify the
condition variable once.  Returns the new flag value and the number of
notifications issued. -/
def CystatsSender.ask_stop (running : Bool) : Except String (Bool × Nat) :=
  if running then Except.ok (false, 1) else Except.error "AssertionError"

/-- `FastatsClient.stop`: `self._sender_thread.ask_stop()`, join the thread,
then `atexit.unregister(self.stop)`.  The `AssertionError` from `ask_stop`
propagates to the caller. -/
def FastatsClient.stop (st : ClientState) : Except String ClientState :=
  match CystatsSender.ask_stop st.senderRunning with
  | Except.error e => Except.error e
  | Except.ok (r, n) =>
      Except.ok { st with
        senderRunning := r
        notifyCount := st.notifyCount + n
        atexitRegistered := false }

/-- The `Timer` helper's fields: the bound stat name and rate, the measured
duration `ms` (`None` until `stop` computes it), the `_sent` flag and the
`_start_time` monotonic timestamp. -/
structure Timer where
  stat : String
  rate : ℚ
  ms : Option Int
  _sent : Bool
  _start_time : Option ℚ
deriving DecidableEq, Repr

/-- `Timer.__init__` as produced by `FastatsClient.timer(stat, rate)`. -/
def FastatsClient.timer (stat : String) (rate : ℚ) : Timer :=
  { stat := stat, rate := rate, ms := none, _sent := false, _start_time := none }

/-- Python `round` on a rational (round half to even, as `int(round(x))`
behaves in Python 3). -/
def pyRound (q : ℚ) : Int :=
  let f := Int.floor q
  let frac := q - f
  if frac < 1/2 then f
  else if 1/2 < frac then f + 1
  else if f % 2 = 0 then f else f + 1

/-- `Timer.start` at monotonic time `t`: reset `ms` and `_sent`, record the
start timestamp. -/
def Timer.start (t : ℚ) (tm : Timer) : Timer :=
  { tm with ms := none, _sent := false, _start_time := some t }

/-- `Timer.send`: raise `RuntimeError('No data recorded.')` when `ms` is
`None`, raise `RuntimeError('Already sent data.')` when already sent,
otherwise mark sent and call `self.client.timing(self.stat, self.ms,
self.rate)` with draw `u` on client state `cs`. -/
def Timer.send (u : ℚ) (tm : Timer) (cs : ClientState) :
    Except String (Timer × ClientState) :=
  match tm.ms with
  | none => Except.error "No data recorded."
  | some m =>
      if tm._sent then Except.error "Already sent data."
      else
        Except.ok ({ tm with _sent := true },
          FastatsClient.timing u cs tm.stat (m : ℚ) tm.rate)

/-- `Timer.stop` at monotonic time `t`: raise
`RuntimeError('Timer has not started.')` when `start` was never called,
otherwise set `ms = int(round(1000 * dt))` and, when `send` is true,
immediately call `self.send()`. -/
def Timer.stop (t : ℚ) (u : ℚ) (tm : Timer) (cs : ClientState) (send : Bool) :
    Except String (Timer × ClientState) :=
  match tm._start_time with
  | none => Except.error "Timer has not started."
  | some t0 =>
      let tm1 := { tm with ms := some (pyRound (1000 * (t - t0))) }
      if send then Timer.send u tm1 cs else Except.ok (tm1, cs)

/-- One UDP datagram payload produced by `MetricCollector.flush()`. -/
abbrev Payload := String

/-- An outcome of the python try-block: a value, or a raised exception
identified by name. -/
inductive PyResult (α : Type) where
  | ok (a : α)
  | exn (e : String)
deriving DecidableEq, Repr

/-- `self._sock.sendto(data, self._server_addr)`: the network oracle `net`
says which exception (if any) the send of a given payload raises. -/
def CystatsSender.sendto (net : Payload → Option String) (p : Payload) :
    PyResult Unit :=
  match net p with
  | none => PyResult.ok ()
  | some e => PyResult.exn e

/-- `CystatsSender._flush`: iterate over the buffer in order; each payload
is sent inside `try: ... except socket.error: pass`, so a `socket.error`
is swallowed and iteration continues, while any other exception propagates.
The result records, per payload in attempt order, whether its datagram was
delivered. -/
def CystatsSender._flush (net : Payload → Option String) :
    List Payload → PyResult (List (Payload × Bool))
  | [] => PyResult.ok []
  | p :: rest =>
      let attempt : PyResult Bool :=
        match CystatsSender.sendto net p with
        | PyResult.ok _ => PyResult.ok true
        | PyResult.exn e =>
            if e = "socket.error" then PyResult.ok false else PyResult.exn e
      match attempt with
      | PyResult.exn e => PyResult.exn e
      | PyResult.ok delivered =>
          match CystatsSender._flush net rest with
          | PyResult.exn e => PyResult.exn e
          | PyResult.ok tr => PyResult.ok ((p, delivered) :: tr)

/-- One observable action of the Sender thread's `run` loop: acquiring or
releasing `self._cv`, checking `self._running` (with the value observed),
waiting on the condition variable, draining the collector
(`buffer = self._queue.flush()`, with the batch obtained), and transmitting
a batch through `self._flush` outside the lock. -/
inductive SenderAction where
  | acquire
  | checkRun (b : Bool)
  | wait
  | drain (batch : List Payload)
  | release
  | transmit (batch : List Payload)
deriving DecidableEq, Repr

/-- How a terminating execution of the `run` loop exits: either the check
at the top of an iteration observes `_running = False`, or the re-check
after `wait`/`flush` does, with `q` the batch that this last drain
produced. -/
inductive StopPoint where
  | atFirstCheck
  | atRecheck (q : List Payload)
deriving DecidableEq, Repr

/-- Trace of `CystatsSender.run` given the interference schedule: `buffer`
is the unconsumed remainder of the one-shot generator held in the loop's
`buffer` variable (`[]` initially, and again after an in-loop `_flush`
consumes it), `sched` lists the batch drained in each iteration in which
both checks of `_running` observed true, and `stop` tells how the loop
exits.  Each full iteration is
acquire, check (true), wait, drain, re-check (true), release, transmit;
on exit the loop breaks, releases the lock, and the trailing
`self._flush(buffer)` transmits whatever of `buffer` is unconsumed. -/
def CystatsSender.runAux :
    List Payload → List (List Payload) → StopPoint → List SenderAction
  | buffer, [], StopPoint.atFirstCheck =>
      [SenderAction.acquire, SenderAction.checkRun false,
       SenderAction.release, SenderAction.transmit buffer]
  | _, [], StopPoint.atRecheck q =>
      [SenderAction.acquire, SenderAction.checkRun true, SenderAction.wait,
       SenderAction.drain q, SenderAction.checkRun false,
       SenderAction.release, SenderAction.transmit q]
  | _, q :: rest, stop =>
      SenderAction.acquire :: SenderAction.checkRun true ::
      SenderAction.wait :: SenderAction.drain q ::
      SenderAction.checkRun true :: SenderAction.release ::
      SenderAction.transmit q :: CystatsSender.runAux [] rest stop

/-- `CystatsSender.run`: the loop starts with `buffer = []`. -/
def CystatsSender.run (sched : List (List Payload)) (stop : StopPoint) :
    List SenderAction :=
  CystatsSender.runAux [] sched stop

/-- The ordering property the spec asserts of the loop: after a `wait`
returns, the running flag is re-checked before any data is consumed — i.e.
a `wait` is never immediately followed by a `drain`. -/
def recheckBeforeConsume : List SenderAction → Bool
  | SenderAction.wait :: SenderAction.drain _ :: _ => false
  | _ :: rest => recheckBeforeConsume rest
  | [] => true

/-- The ordering the code actually implements: every `wait` is immediately
followed by a `drain` (the collector is drained before the flag is
re-checked). -/
def waitThenDrain : List SenderAction → Bool
  | SenderAction.wait :: SenderAction.drain _ :: rest => waitThenDrain rest
  | SenderAction.wait :: _ => false
  | _ :: rest => waitThenDrain rest
  | [] => true

/-- Every `drain` of a batch is immediately followed by a re-check of the
running flag, then a `release` of the lock, then a `transmit` of exactly
that batch: the drained batch is transmitted after the lock is released,
whether the re-check observed true (in-loop flush) or false (the final
flush after the loop breaks). -/
def drainRecheckReleaseTransmit : List SenderAction → Prop
  | SenderAction.drain q :: SenderAction.checkRun _ :: SenderAction.release ::
      SenderAction.transmit q' :: rest =>
      q = q' ∧ drainRecheckReleaseTransmit rest
  | SenderAction.drain _ :: _ => False
  | _ :: rest => drainRecheckReleaseTransmit rest
  | [] => True

/-- C1 (counterexample): the claim says a second `stop()` is a safe no-op,
but on a freshly constructed client the first `stop()` succeeds and the
second raises `AssertionError` from `CystatsSender.ask_stop`'s
`assert self._running`. -/
theorem stop_stop_raises_assertionError :
    (FastatsClient.stop (FastatsClient.init "app")).isOk = true
    ∧ (FastatsClient.stop (FastatsClient.init "app")).bind FastatsClient.stop =
        Except.error "AssertionError" := by
  constructor <;> rfl

/-- C1 (amended): `stop()` is not idempotent.  The first `stop()` on a
client whose Sender is running succeeds — it clears the running flag,
notifies the Sender once, and unregisters the `atexit` hook — and every
later `stop()` raises `AssertionError`, because `ask_stop` asserts that the
Sender is still running; the second call therefore transmits nothing, but
it is not a safe no-op. -/
theorem stop_not_idempotent (st : ClientState) (h : st.senderRunning = true) :
    FastatsClient.stop st =
      Except.ok { st with
        senderRunning := false
        notifyCount := st.notifyCount + 1
        atexitRegistered := false }
    ∧ FastatsClient.stop { st with
        senderRunning := false
        notifyCount := st.notifyCount + 1
        atexitRegistered := false } =
        Except.error "AssertionError" := by
  constructor <;> simp [FastatsClient.stop, CystatsSender.ask_stop, h]

/-- C1 (witness): the amended statement at a concrete client. -/
theorem stop_not_idempotent_witness :
    (FastatsClient.init "app").senderRunning = true
    ∧ FastatsClient.stop (FastatsClient.init "app") =
        Except.ok { FastatsClient.init "app" with
          senderRunning := false
          notifyCount := (FastatsClient.init "app").notifyCount + 1
          atexitRegistered := false }
    ∧ FastatsClient.stop { FastatsClient.init "app" with
          senderRunning := false
          notifyCount := (FastatsClient.init "app").notifyCount + 1
          atexitRegistered := false } =
        Except.error "AssertionError" :=
  ⟨rfl, stop_not_idempotent (FastatsClient.init "app") rfl⟩

/-- C9: `decr(name, count, rate)` is exactly `incr(name, -count, rate)` —
the same sampling decision, and when the call records it pushes the counter
event with the count negated. -/
theorem decr_eq_incr_neg (u rate : ℚ) (st : ClientState) (s : String)
    (c : Int) :
    FastatsClient.decr u st s c rate = FastatsClient.incr u st s (-c) rate
    ∧ (u ≤ rate →
        FastatsClient.decr u st s c rate =
          { st with
            queue := st.queue ++ [MetricEvent.counter (st.pfx ++ s) (-c) rate]
            notifyCount := st.notifyCount + 1 })
    ∧ (rate < u → FastatsClient.decr u st s c rate = st) := by
  refine ⟨rfl, ?_, ?_⟩
  · intro h
    simp only [FastatsClient.decr, FastatsClient.incr]
    rw [if_neg (not_lt.2 h)]
  · intro h
    simp only [FastatsClient.decr, FastatsClient.incr]
    rw [if_pos h]

/-- C9 (witness): at draw 1/2, rate 1, a `decr` of 3 pushes the counter
event with count -3. -/
theorem decr_eq_incr_neg_witness :
    ((1 : ℚ)/2 ≤ 1)
    ∧ FastatsClient.decr (1/2) (FastatsClient.init "") "x" 3 1 =
      { FastatsClient.init "" with
          queue := (FastatsClient.init "").queue ++
            [MetricEvent.counter ((FastatsClient.init "").pfx ++ "x") (-3) 1]
          notifyCount := (FastatsClient.init "").notifyCount + 1 } :=
  ⟨by norm_num,
    (decr_eq_incr_neg (1/2) 1 (FastatsClient.init "") "x" 3).2.1 (by norm_num)⟩

/-- C10: `pipeline()` always raises `NotImplementedError` and leaves the
client's state — collector queue, running flag, everything — unchanged. -/
theorem pipeline_raises_not_implemented (st : ClientState) :
    (FastatsClient.pipeline st).2 = some "NotImplementedError"
    ∧ (FastatsClient.pipeline st).1.queue = st.queue
    ∧ (FastatsClient.pipeline st).1.senderRunning = st.senderRunning
    ∧ (FastatsClient.pipeline st).1 = st :=
  ⟨rfl, rfl, rfl, rfl⟩

/-- C2 (counterexample): the claim says the running flag is re-checked
after `wait` returns before any data is consumed, and that the Collector is
drained only if the flag is still true.  In the execution that drains the
batch `["a"]` and then observes the stop request at the re-check, the trace
shows the drain happening immediately after the wait — before the re-check,
and although the flag is already false at that re-check. -/
theorem run_drains_before_recheck_cex :
    CystatsSender.run [] (StopPoint.atRecheck ["a"]) =
      [SenderAction.acquire, SenderAction.checkRun true, SenderAction.wait,
       SenderAction.drain ["a"], SenderAction.checkRun false,
       SenderAction.release, SenderAction.transmit ["a"]]
    ∧ recheckBeforeConsume (CystatsSender.run [] (StopPoint.atRecheck ["a"]))
        = false :=
  ⟨rfl, rfl⟩

/-- C2 (amended): in every iteration of the Sender's main loop, after the
condition-variable wait returns the Collector is drained into a batch
first, and the running flag is re-checked only after that drain; in either
outcome of the re-check the drained batch is then transmitted after the
lock is released — inside the loop when the flag is still true, and by the
final flush after the loop breaks when it is false. -/
theorem run_loop_order (sched : List (List Payload)) (stop : StopPoint) :
    waitThenDrain (CystatsSender.run sched stop) = true
    ∧ drainRecheckReleaseTransmit (CystatsSender.run sched stop) := by
  rw [CystatsSender.run]
  induction sched with
  | nil =>
      cases stop with
      | atFirstCheck =>
          refine ⟨rfl, ?_⟩
          simp only [CystatsSender.runAux, drainRecheckReleaseTransmit]
      | atRecheck q =>
          refine ⟨rfl, ?_⟩
          simp only [CystatsSender.runAux, drainRecheckReleaseTransmit]
          exact ⟨trivial, trivial⟩
  | cons q rest ih =>
      refine ⟨?_, ?_⟩
      · simp only [CystatsSender.runAux, waitThenDrain]
        exact ih.1
      · simp only [CystatsSender.runAux, drainRecheckReleaseTransmit]
        exact ⟨trivial, ih.2⟩

/-- C3 (counterexample): the claim says the zero-reset gauge push is not
subject to the call's sampling decision and occurs even when `rate` is 0.0.
But the sampling guard is the first statement of `gauge`: with `rate = 0`
and draw `u = 1/2` the whole call returns early, pushing nothing at all —
no reset, no notification. -/
theorem gauge_dropped_call_pushes_no_reset_cex :
    FastatsClient.gauge (1/2) (FastatsClient.init "") "x" (-7) 0 false =
      FastatsClient.init ""
    ∧ (FastatsClient.gauge (1/2) (FastatsClient.init "") "x" (-7) 0 false).queue
        = [] := by
  have h : (0 : ℚ) < 1/2 := by norm_num
  constructor
  · simp only [FastatsClient.gauge]
    rw [if_pos h]
  · simp only [FastatsClient.gauge]
    rw [if_pos h]
    rfl

/-- C3 (amended): for a `gauge` call with a negative value and
`delta = False` that passes its own sampling decision (`u ≤ rate`), the
absolute reset-to-zero event is pushed with rate parameter `1` regardless
of the call's own rate, immediately before the real gauge event; when the
call is dropped by sampling (`rate < u`) — in particular for `rate = 0.0`
with any draw `u > 0` — nothing is pushed, the reset included. -/
theorem gauge_reset_rate_one (u rate : ℚ) (st : ClientState) (s : String)
    (v : Int) (hv : v < 0) :
    (u ≤ rate →
      (FastatsClient.gauge u st s v rate false).queue =
        st.queue ++ [MetricEvent.gauge (st.pfx ++ s) 0 1 false,
                     MetricEvent.gauge (st.pfx ++ s) v rate false])
    ∧ (rate < u → FastatsClient.gauge u st s v rate false = st) := by
  constructor
  · intro h
    simp only [FastatsClient.gauge]
    rw [if_neg (not_lt.2 h)]
    simp [hv]
  · intro h
    simp only [FastatsClient.gauge]
    rw [if_pos h]

/-- C3 (witness): the amended statement at `u = 0`, `rate = 0`, value −7:
the reset is pushed at rate 1 even though the call's rate is 0, because the
draw 0 does not exceed the rate. -/
theorem gauge_reset_rate_one_witness :
    ((-7 : Int) < 0) ∧ ((0 : ℚ) ≤ 0)
    ∧ (FastatsClient.gauge 0 (FastatsClient.init "") "x" (-7) 0 false).queue =
        (FastatsClient.init "").queue ++
          [MetricEvent.gauge ((FastatsClient.init "").pfx ++ "x") 0 1 false,
           MetricEvent.gauge ((FastatsClient.init "").pfx ++ "x") (-7) 0 false] :=
  ⟨by norm_num, le_refl 0,
    (gauge_reset_rate_one 0 0 (FastatsClient.init "") "x" (-7)
      (by norm_num)).1 (le_refl 0)⟩

/-- C4: for a gauge call that passes sampling, a negative value with
`delta = False` pushes exactly two gauge events in order — the absolute
reset of the key to 0 and then the event carrying the negative value —
while `delta = True` pushes exactly the one delta event, and a non-negative
value with `delta = False` pushes exactly the one absolute event. -/
theorem gauge_event_multiplicity (u rate : ℚ) (st : ClientState) (s : String)
    (v : Int) (h : u ≤ rate) :
    (v < 0 → FastatsClient.gauge u st s v rate false =
      { st with
        queue := st.queue ++ [MetricEvent.gauge (st.pfx ++ s) 0 1 false,
                              MetricEvent.gauge (st.pfx ++ s) v rate false]
        notifyCount := st.notifyCount + 1 })
    ∧ (FastatsClient.gauge u st s v rate true =
      { st with
        queue := st.queue ++ [MetricEvent.gauge (st.pfx ++ s) v rate true]
        notifyCount := st.notifyCount + 1 })
    ∧ (0 ≤ v → FastatsClient.gauge u st s v rate false =
      { st with
        queue := st.queue ++ [MetricEvent.gauge (st.pfx ++ s) v rate false]
        notifyCount := st.notifyCount + 1 }) := by
  refine ⟨?_, ?_, ?_⟩
  · intro hv
    simp only [FastatsClient.gauge]
    rw [if_neg (not_lt.2 h)]
    simp [hv]
  · simp only [FastatsClient.gauge]
    rw [if_neg (not_lt.2 h)]
    simp
  · intro hv
    simp only [FastatsClient.gauge]
    rw [if_neg (not_lt.2 h)]
    simp [not_lt.2 hv]

/-- C4 (witness): at draw 1/2 and rate 1, `gauge("x", -7)` pushes the reset
and the −7 event, and `gauge("x", -7, delta=True)` pushes only the delta
event. -/
theorem gauge_event_multiplicity_witness :
    ((1 : ℚ)/2 ≤ 1) ∧ ((-7 : Int) < 0)
    ∧ FastatsClient.gauge (1/2) (FastatsClient.init "") "x" (-7) 1 false =
      { FastatsClient.init "" with
        queue := (FastatsClient.init "").queue ++
          [MetricEvent.gauge ((FastatsClient.init "").pfx ++ "x") 0 1 false,
           MetricEvent.gauge ((FastatsClient.init "").pfx ++ "x") (-7) 1 false]
        notifyCount := (FastatsClient.init "").notifyCount + 1 }
    ∧ FastatsClient.gauge (1/2) (FastatsClient.init "") "x" (-7) 1 true =
      { FastatsClient.init "" with
        queue := (FastatsClient.init "").queue ++
          [MetricEvent.gauge ((FastatsClient.init "").pfx ++ "x") (-7) 1 true]
        notifyCount := (FastatsClient.init "").notifyCount + 1 } :=
  ⟨by norm_num, by norm_num,
    (gauge_event_multiplicity (1/2) 1 (FastatsClient.init "") "x" (-7)
      (by norm_num)).1 (by norm_num),
    (gauge_event_multiplicity (1/2) 1 (FastatsClient.init "") "x" (-7)
      (by norm_num)).2.1⟩

/-- C5 (counterexample): the claim says `rate = 0.0` never records, yet it
also says an event is pushed whenever the draw `u` does not exceed `rate`.
`random.random()` draws from [0,1), so `u = 0` is a legal draw; at
`u = 0, rate = 0` the guard `random.random() > rate` is false and the
timing call records the event. -/
theorem rate_zero_records_at_zero_draw_cex :
    (FastatsClient.timing 0 (FastatsClient.init "") "x" 5 0).queue =
      [MetricEvent.timer ((FastatsClient.init "").pfx ++ "x") 5 0] := by
  simp only [FastatsClient.timing]
  rw [if_neg (lt_irrefl (0 : ℚ))]
  rfl

/-- C5 (amended): a recording call parameterised by the draw `u ∈ [0,1)`
pushes an event if and only if `u` does not exceed `rate`.  When `rate < u`
the call performs no push and no notification and leaves the entire client
state unchanged, for all four operations; when `u ≤ rate` each operation
notifies exactly once and pushes.  `rate = 1.0` always records; `rate = 0.0`
drops for every draw `u > 0` but does record in the measure-zero case
`u = 0`. -/
theorem sampling_policy (u rate : ℚ) (st : ClientState) (s : String)
    (c v : Int) (d : ℚ) (dl : Bool) (h0 : 0 ≤ u) (h1 : u < 1) :
    (rate < u →
        FastatsClient.incr u st s c rate = st
      ∧ FastatsClient.timing u st s d rate = st
      ∧ FastatsClient.set u st s v rate = st
      ∧ FastatsClient.gauge u st s v rate dl = st)
    ∧ (u ≤ rate →
        (FastatsClient.incr u st s c rate).notifyCount = st.notifyCount + 1
      ∧ (FastatsClient.timing u st s d rate).notifyCount = st.notifyCount + 1
      ∧ (FastatsClient.set u st s v rate).notifyCount = st.notifyCount + 1
      ∧ (FastatsClient.gauge u st s v rate dl).notifyCount = st.notifyCount + 1
      ∧ FastatsClient.incr u st s c rate ≠ st)
    ∧ (rate = 1 → FastatsClient.incr u st s c rate ≠ st)
    ∧ (rate = 0 → 0 < u → FastatsClient.incr u st s c rate = st)
    ∧ (rate = 0 → u = 0 → FastatsClient.incr u st s c rate ≠ st) := by
  have hpush : ∀ h : u ≤ rate,
      (FastatsClient.incr u st s c rate).notifyCount = st.notifyCount + 1 := by
    intro h
    simp only [FastatsClient.incr]
    rw [if_neg (not_lt.2 h)]
  have hne : ∀ h : u ≤ rate, FastatsClient.incr u st s c rate ≠ st := by
    intro h he
    have := hpush h
    rw [he] at this
    omega
  refine ⟨?_, ?_, ?_, ?_, ?_⟩
  · intro h
    refine ⟨?_, ?_, ?_, ?_⟩ <;>
      simp only [FastatsClient.incr, FastatsClient.timing, FastatsClient.set,
        FastatsClient.gauge] <;> rw [if_pos h]
  · intro h
    refine ⟨hpush h, ?_, ?_, ?_, hne h⟩ <;>
      simp only [FastatsClient.timing, FastatsClient.set,
        FastatsClient.gauge] <;> rw [if_neg (not_lt.2 h)]
  · intro hr
    exact hne (hr ▸ le_of_lt h1)
  · intro hr hu
    simp only [FastatsClient.incr]
    rw [if_pos (hr ▸ hu)]
  · intro hr hu
    exact hne (by rw [hr, hu])

/-- C5 (witness): at draw 1/2 and rate 1 the counter call records (the
client state changes), and at draw 1/2 and rate 0 all four calls leave the
state untouched. -/
theorem sampling_policy_witness :
    ((0 : ℚ) ≤ 1/2) ∧ ((1 : ℚ)/2 < 1)
    ∧ FastatsClient.incr (1/2) (FastatsClient.init "") "x" 3 1 ≠
        FastatsClient.init ""
    ∧ FastatsClient.incr (1/2) (FastatsClient.init "") "x" 3 0 =
        FastatsClient.init "" :=
  ⟨by norm_num, by norm_num,
    (sampling_policy (1/2) 1 (FastatsClient.init "") "x" 3 4 5 false
      (by norm_num) (by norm_num)).2.2.1 rfl,
    (sampling_policy (1/2) 0 (FastatsClient.init "") "x" 3 4 5 false
      (by norm_num) (by norm_num)).2.2.2.1 rfl (by norm_num)⟩

/-- C6: `_flush` attempts each payload of the batch exactly once, in drain
order, as one datagram each; when the socket raises only `socket.error`
(the exception `sendto` can raise), every failure is swallowed — the loop
neither propagates it, nor retries the payload, nor skips the remaining
payloads.  The result lists every payload of the buffer in order, paired
with whether its datagram was delivered. -/
theorem flush_attempts_all_in_order (net : Payload → Option String)
    (buffer : List Payload)
    (h : ∀ p, net p = none ∨ net p = some "socket.error") :
    CystatsSender._flush net buffer =
      PyResult.ok (buffer.map fun p => (p, (net p).isNone)) := by
  induction buffer with
  | nil => rfl
  | cons p rest ih =>
      simp only [CystatsSender._flush, CystatsSender.sendto, List.map_cons]
      rcases h p with hp | hp <;> rw [hp] <;> simp [ih]

/-- C6 (witness): a socket that fails on payload "a" only: the batch
["a", "b"] is attempted in order, the failure on "a" is swallowed, and "b"
is still sent. -/
theorem flush_attempts_all_in_order_witness :
    (∀ p : Payload,
        (if p = "a" then some "socket.error" else none) = none
      ∨ (if p = "a" then some "socket.error" else none) = some "socket.error")
    ∧ CystatsSender._flush
        (fun p => if p = "a" then some "socket.error" else none) ["a", "b"] =
        PyResult.ok [("a", false), ("b", true)] := by
  have h : ∀ p : Payload,
      (if p = "a" then some "socket.error" else none) = none
    ∨ (if p = "a" then some "socket.error" else none) = some "socket.error" := by
    intro p
    by_cases hp : p = "a" <;> simp [hp]
  refine ⟨h, ?_⟩
  rw [flush_attempts_all_in_order _ _ h]
  rfl

/-- C7: Timer usage errors propagate synchronously to the offending call —
`stop` raises `RuntimeError('Timer has not started.')` when `start` was
never called, `send` raises `RuntimeError('No data recorded.')` when no
duration has been measured and `RuntimeError('Already sent data.')` when
already sent once; otherwise `send` forwards the measured duration to the
client's `timing` operation with the Timer's bound stat and rate, marks the
Timer sent, and a repeated `send` then fails. -/
theorem timer_usage_contract (tm : Timer) (cs : ClientState) (t u : ℚ) :
    (tm._start_time = none →
      ∀ sd : Bool, Timer.stop t u tm cs sd = Except.error "Timer has not started.")
    ∧ (tm.ms = none → Timer.send u tm cs = Except.error "No data recorded.")
    ∧ (∀ m : Int, tm.ms = some m → tm._sent = true →
        Timer.send u tm cs = Except.error "Already sent data.")
    ∧ (∀ m : Int, tm.ms = some m → tm._sent = false →
        Timer.send u tm cs =
          Except.ok ({ tm with _sent := true },
            FastatsClient.timing u cs tm.stat (m : ℚ) tm.rate)
        ∧ Timer.send u { tm with _sent := true } cs =
            Except.error "Already sent data.") := by
  refine ⟨?_, ?_, ?_, ?_⟩
  · intro hst sd
    simp [Timer.stop, hst]
  · intro hms
    simp [Timer.send, hms]
  · intro m hms hs
    simp [Timer.send, hms, hs]
  · intro m hms hs
    constructor
    · simp [Timer.send, hms, hs]
    · simp [Timer.send, hms]

/-- C7 (witness): a never-started Timer's `stop` raises; a Timer holding a
measured duration of 5 ms sends it through `timing` once and a second
`send` raises. -/
theorem timer_usage_contract_witness :
    (FastatsClient.timer "x" 1)._start_time = none
    ∧ Timer.stop 3 0 (FastatsClient.timer "x" 1) (FastatsClient.init "") true =
        Except.error "Timer has not started."
    ∧ (Timer.mk "x" 1 (some 5) false none).ms = some 5
    ∧ (Timer.send 0 (Timer.mk "x" 1 (some 5) false none) (FastatsClient.init "") =
        Except.ok ({ Timer.mk "x" 1 (some 5) false none with _sent := true },
          FastatsClient.timing 0 (FastatsClient.init "") "x" ((5 : Int) : ℚ) 1)
      ∧ Timer.send 0 { Timer.mk "x" 1 (some 5) false none with _sent := true }
          (FastatsClient.init "") = Except.error "Already sent data.") :=
  ⟨rfl,
   (timer_usage_contract (FastatsClient.timer "x" 1) (FastatsClient.init "") 3 0).1
     rfl true,
   rfl,
   (timer_usage_contract (Timer.mk "x" 1 (some 5) false none)
     (FastatsClient.init "") 3 0).2.2.2 5 rfl rfl⟩

/-- The key a client constructed with the given prefix builds for a stat:
the stored `_prefix` (dot-suffixed when non-empty) concatenated with the
stat name. -/
theorem init_pfx_append (pre s : String) :
    (FastatsClient.init pre).pfx ++ s = if pre = "" then s else pre ++ "." ++ s := by
  by_cases hp : pre = ""
  · simp [FastatsClient.init, hp, String.empty_append]
  · simp [FastatsClient.init, hp, String.append_assoc]

/-- C8: every event pushed by a recording call on a client constructed with
prefix `pre` carries the key `pre ++ "." ++ name` when `pre` is non-empty,
and the bare `name` (no leading dot) when `pre` is the default empty
string. -/
theorem prefixed_key (pre s : String) (u rate : ℚ) (c v : Int) (d : ℚ)
    (dl : Bool) (h : u ≤ rate) :
    (∀ e ∈ (FastatsClient.incr u (FastatsClient.init pre) s c rate).queue,
      e.key = if pre = "" then s else pre ++ "." ++ s)
    ∧ (∀ e ∈ (FastatsClient.timing u (FastatsClient.init pre) s d rate).queue,
      e.key = if pre = "" then s else pre ++ "." ++ s)
    ∧ (∀ e ∈ (FastatsClient.set u (FastatsClient.init pre) s v rate).queue,
      e.key = if pre = "" then s else pre ++ "." ++ s)
    ∧ (∀ e ∈ (FastatsClient.gauge u (FastatsClient.init pre) s v rate dl).queue,
      e.key = if pre = "" then s else pre ++ "." ++ s) := by
  have hnot := not_lt.2 h
  refine ⟨?_, ?_, ?_, ?_⟩ <;> intro e he
  · simp only [FastatsClient.incr] at he
    rw [if_neg hnot] at he
    simp only [List.mem_append, List.mem_singleton] at he
    rcases he with he | he
    · simp [FastatsClient.init] at he
    · rw [he, MetricEvent.key, init_pfx_append]
  · simp only [FastatsClient.timing] at he
    rw [if_neg hnot] at he
    simp only [List.mem_append, List.mem_singleton] at he
    rcases he with he | he
    · simp [FastatsClient.init] at he
    · rw [he, MetricEvent.key, init_pfx_append]
  · simp only [FastatsClient.set] at he
    rw [if_neg hnot] at he
    simp only [List.mem_append, List.mem_singleton] at he
    rcases he with he | he
    · simp [FastatsClient.init] at he
    · rw [he, MetricEvent.key, init_pfx_append]
  · simp only [FastatsClient.gauge] at he
    rw [if_neg hnot] at he
    by_cases hv : v < 0 ∧ dl = false
    · rw [if_pos hv] at he
      simp only [List.mem_append, List.mem_singleton] at he
      rcases he with (he | he) | he
      · simp [FastatsClient.init] at he
      · rw [he, MetricEvent.key, init_pfx_append]
      · rw [he, MetricEvent.key, init_pfx_append]
    · rw [if_neg hv] at he
      simp only [List.mem_append, List.mem_singleton] at he
      rcases he with he | he
      · simp [FastatsClient.init] at he
      · rw [he, MetricEvent.key, init_pfx_append]

/-- C8 (witness): with prefix "app" and stat "hits", the recorded counter
event's key is "app" ++ "." ++ "hits". -/
theorem prefixed_key_witness :
    ((1 : ℚ)/2 ≤ 1)
    ∧ (MetricEvent.counter ((FastatsClient.init "app").pfx ++ "hits") 1 1).key =
        (if "app" = "" then "hits" else "app" ++ "." ++ "hits") := by
  have h : (1 : ℚ)/2 ≤ 1 := by norm_num
  refine ⟨h, ?_⟩
  apply (prefixed_key "app" "hits" (1/2) 1 1 2 3 false h).1
  simp only [FastatsClient.incr]
  rw [if_neg (not_lt.2 h)]
  simp
